import Mathlib

/-!
Verification of the provider-adapter layer of the v0.diy repository.

JavaScript strings are modelled as lists of characters (`Str`).  Each
definition below is a direct translation of a function or code block of
the repository source (`src/lib/providers/*.ts` and the unnamed provider
files); doc comments name the source location.
-/

namespace VDiy

/-- JavaScript strings, modelled as lists of characters. -/
abbrev Str := List Char

/-- Whitespace as recognised by JavaScript `String.prototype.trim`
(ASCII whitespace plus NBSP and the BOM). -/
def jsWhitespace (c : Char) : Bool :=
  c == ' ' || c == '\t' || c == '\n' || c == '\r' ||
  c == '\x0b' || c == '\x0c' || c == ' ' || c == '﻿'

/-- JavaScript `s.trim()`: drop leading and trailing whitespace. -/
def trim (s : Str) : Str :=
  ((s.dropWhile jsWhitespace).reverse.dropWhile jsWhitespace).reverse

/-- JavaScript `content.split("\n\n")`: split on the two-character
separator, leftmost first, non-overlapping.  Always returns at least one
(possibly empty) piece, as JS `split` does. -/
def splitOnNN : Str → List Str
  | [] => [[]]
  | [c] => [[c]]
  | c1 :: c2 :: rest =>
    if c1 = '\n' ∧ c2 = '\n' then
      [] :: splitOnNN rest
    else
      match splitOnNN (c2 :: rest) with
      | [] => [[c1]]
      | p :: ps => (c1 :: p) :: ps

/-- One row of the MessageBinaryFormat: the source builds arrays
`[rowType, text]` with `rowType = 0` for paragraphs
(OllamaProvider.formatContentAsMessageBinaryFormat). -/
structure Block where
  rowType : Nat
  text : Str
deriving DecidableEq

/-- Translation of `OllamaProvider.formatContentAsMessageBinaryFormat`
(src/unnamed/part_000, lines 304-322): split on blank lines, keep the
paragraphs whose trim is non-empty (JS truthiness of `p.trim()`), wrap
each as a type-0 row; the guarded single-block branch of the source is
kept verbatim. -/
def formatContentAsMessageBinaryFormat (content : Str) : List Block :=
  let paragraphs := (splitOnNN content).filter (fun p => !(trim p).isEmpty)
  if paragraphs.isEmpty && !(trim content).isEmpty then
    [⟨0, trim content⟩]
  else
    paragraphs.map (fun p => ⟨0, trim p⟩)

/-- Fold that threads a state through a list while accumulating the
outputs emitted at each step. -/
def accumFold (g : σ → α → σ × List β) (s : σ) (xs : List α) : σ × List β :=
  xs.foldl (fun acc x => ((g acc.1 x).1, acc.2 ++ (g acc.1 x).2)) (s, [])

/-- Maximal length of a UTF-8 sequence headed by the given lead byte. -/
def utf8SeqLen (lead : Nat) : Nat :=
  if lead < 0xC0 then 1 else if lead < 0xE0 then 2
  else if lead < 0xF0 then 3 else 4

/-- Code point encoded by a complete UTF-8 byte sequence. -/
def utf8CodePoint : List Nat → Nat
  | [b] => b
  | [l, c] => (l - 0xC0) * 64 + (c - 0x80)
  | [l, c1, c2] => (l - 0xE0) * 4096 + (c1 - 0x80) * 64 + (c2 - 0x80)
  | [l, c1, c2, c3] =>
      (l - 0xF0) * 262144 + (c1 - 0x80) * 4096 + (c2 - 0x80) * 64 + (c3 - 0x80)
  | _ => 0xFFFD

/-- Scalar value to character, substituting U+FFFD for invalid values
(surrogates and out-of-range), as the platform decoder does. -/
def charOfCodePoint (n : Nat) : Char :=
  if h : n.isValidChar then Char.ofNatAux n h else '�'

/-- Incremental UTF-8 decoder step, modelling the platform TextDecoder
used with the stream option (part_000 line 250, llama-provider line 206):
the state is the pending incomplete byte sequence held across chunk
boundaries; each byte either completes, extends, or aborts it. -/
def utf8Step : List Nat → Nat → List Nat × List Char
  | [], b =>
    if b < 0x80 then ([], [charOfCodePoint b])
    else if 0xC2 ≤ b ∧ b ≤ 0xF4 then ([b], [])
    else ([], ['�'])
  | l :: rest, b =>
    if 0x80 ≤ b ∧ b < 0xC0 then
      let seq := l :: rest ++ [b]
      if utf8SeqLen l ≤ seq.length then ([], [charOfCodePoint (utf8CodePoint seq)])
      else (seq, [])
    else if b < 0x80 then ([], ['�', charOfCodePoint b])
    else if 0xC2 ≤ b ∧ b ≤ 0xF4 then ([b], ['�'])
    else ([], ['�', '�'])

/-- A whole chunk fed byte-by-byte to the incremental decoder, as
TextDecoder.decode(value, with stream) behaves. -/
def utf8FeedBytes (pending : List Nat) (bytes : List Nat) : List Nat × Str :=
  accumFold utf8Step pending bytes

/-- One iteration of the streaming read loops (part_000 lines 250-252,
llama-provider lines 206-208): append the decoded text to the carry-over
buffer, split on newline, re-buffer the final (possibly incomplete)
fragment, and emit the complete lines. -/
def feedChunkLines (buffer : Str) (text : Str) : Str × List Str :=
  (((buffer ++ text).splitOn '\n').getLastD [],
   ((buffer ++ text).splitOn '\n').dropLast)

/-- Character-level version of the split-and-rebuffer step. -/
def lineStep (buf : Str) (c : Char) : Str × List Str :=
  if c = '\n' then ([], [buf]) else (buf ++ [c], [])

def lineCharFeed (buf : Str) (cs : Str) : Str × List Str :=
  accumFold lineStep buf cs

/-- Decoder state of one streaming call: the pending UTF-8 bytes and the
carry-over line buffer of part_000 lines 238-239. -/
structure StreamDecodeState where
  pending : List Nat
  buffer : Str
deriving DecidableEq

def initDecodeState : StreamDecodeState := ⟨[], []⟩

/-- One iteration of the while-loop of part_000 lines 244-253 (identical
in llama-provider lines 200-208): decode the chunk, append to the
buffer, split on newline, re-buffer the final fragment, emit the rest. -/
def decodeChunkStep (st : StreamDecodeState) (chunk : List Nat) :
    StreamDecodeState × List Str :=
  (⟨(utf8FeedBytes st.pending chunk).1,
    (feedChunkLines st.buffer (utf8FeedBytes st.pending chunk).2).1⟩,
   (feedChunkLines st.buffer (utf8FeedBytes st.pending chunk).2).2)

/-- The whole read loop over a list of byte chunks. -/
def decodeChunks (st : StreamDecodeState) (chunks : List (List Nat)) :
    StreamDecodeState × List Str :=
  accumFold decodeChunkStep st chunks

/-- Character-fold variant of one loop iteration. -/
def decodeChunkStepC (st : StreamDecodeState) (chunk : List Nat) :
    StreamDecodeState × List Str :=
  (⟨(utf8FeedBytes st.pending chunk).1,
    (lineCharFeed st.buffer (utf8FeedBytes st.pending chunk).2).1⟩,
   (lineCharFeed st.buffer (utf8FeedBytes st.pending chunk).2).2)

/-- Byte-level version of the loop: one byte at a time. -/
def decodeByteStep (st : StreamDecodeState) (b : Nat) :
    StreamDecodeState × List Str :=
  (⟨(utf8Step st.pending b).1,
    (lineCharFeed st.buffer (utf8Step st.pending b).2).1⟩,
   (lineCharFeed st.buffer (utf8Step st.pending b).2).2)

def decodeBytes (st : StreamDecodeState) (bytes : List Nat) :
    StreamDecodeState × List Str :=
  accumFold decodeByteStep st bytes

/-- Roles of the shared data model (types.ts, Message). -/
inductive Role where
  | user
  | assistant
  | system
deriving DecidableEq

/-- Role rendered as the string sent upstream. -/
def Role.toStr : Role → Str
  | .user => "user".data
  | .assistant => "assistant".data
  | .system => "system".data

/-- A conversation turn (types.ts, Message). -/
structure Message where
  role : Role
  content : Str
deriving DecidableEq

structure Attachment where
  url : Str
deriving DecidableEq

/-- ChatRequest of types.ts; optional fields are options. -/
structure ChatRequest where
  message : Str
  chatId : Option Str
  attachments : Option (List Attachment)
  streaming : Option Bool
  messages : Option (List Message)
deriving DecidableEq

/-- ProviderConfig of types.ts (recognised keys only; extension keys are
never read by the adapters). -/
structure ProviderConfig where
  baseUrl : Option Str
  apiKey : Option Str
  modelName : Option Str
  temperature : Option ℚ
  maxTokens : Option Nat
deriving DecidableEq

/-- JavaScript truthiness of an optional string (absent and empty are
both falsy). -/
def truthy : Option Str → Bool
  | none => false
  | some s => !s.isEmpty

/-- JavaScript `o || d` for an optional string. -/
def jsOr (o : Option Str) (d : Str) : Str :=
  match o with
  | none => d
  | some s => if s.isEmpty then d else s

/-- JavaScript `o || d` for an optional number (0 is falsy). -/
def numOr (o : Option ℚ) (d : ℚ) : ℚ :=
  match o with
  | none => d
  | some x => if x = 0 then d else x

/-- JavaScript `o || d` for an optional natural number (0 is falsy). -/
def natOr (o : Option Nat) (d : Nat) : Nat :=
  match o with
  | none => d
  | some x => if x = 0 then d else x

/-- JavaScript truthiness of `request.streaming`. -/
def jsStreaming (request : ChatRequest) : Bool :=
  request.streaming.getD false

/-- Wire message of the upstream chat bodies ({role, content}). -/
structure OllamaMessage where
  role : Str
  content : Str
deriving DecidableEq

/-- Body of the newline-JSON provider POST (part_000 lines 133-141 and
215-223): model, messages, stream flag and the options object. -/
structure OllamaChatBody where
  model : Str
  messages : List OllamaMessage
  stream : Bool
  temperature : Option ℚ
  num_predict : Option Nat
deriving DecidableEq

/-- Body of the SSE-JSON provider POSTs (llama-provider lines 122-128,
lmstudio lines 241-247). -/
structure OpenAIChatBody where
  model : Str
  messages : List OllamaMessage
  temperature : ℚ
  max_tokens : Nat
  stream : Bool
deriving DecidableEq

/-- Parameters handed to the v0 SDK create call (v0-provider lines
28-33). -/
structure V0CreateParams where
  message : Str
  responseMode : Str
  attachments : Option (List Attachment)
deriving DecidableEq

/-- Parameters handed to the v0 SDK sendMessage call (v0-provider lines
62-68). -/
structure V0SendParams where
  chatId : Str
  message : Str
  responseMode : Option Str
  attachments : Option (List Attachment)
deriving DecidableEq

/-- The outbound HTTP request an adapter is about to issue: target URL,
whether a bearer credential is attached, and the JSON body. -/
structure HttpPost (β : Type) where
  url : Str
  hasAuth : Bool
  body : β
deriving DecidableEq

/-- What a createChat/continueChat call does before any network traffic:
either it raises a configuration error, or it issues the upstream
request. -/
inductive CallStart (β : Type) where
  | configError (msg : Str)
  | request (post : HttpPost β)
deriving DecidableEq

/-- Message list built by the continueChat methods (part_000 lines 66-75,
llama-provider lines 74-83, lmstudio lines 199-208): prior turns mapped
to wire shape, then the new user turn. -/
def continueMessageList (request : ChatRequest) : List OllamaMessage :=
  (request.messages.getD []).map (fun msg => ⟨msg.role.toStr, msg.content⟩)
    ++ [⟨"user".data, request.message⟩]

/-- Message list built by the createChat methods: the new user turn
alone. -/
def createMessageList (request : ChatRequest) : List OllamaMessage :=
  [⟨"user".data, request.message⟩]

/-- OllamaProvider.createChat (part_000 lines 37-57): resolve defaults
and issue the POST; no credential check (the bearer header is attached
only when an apiKey is present). -/
def ollamaCreateChat (request : ChatRequest) (config : ProviderConfig) :
    CallStart OllamaChatBody :=
  .request
    ⟨jsOr config.baseUrl ("http://localhost:11434".data) ++ ("/api/chat".data),
     truthy config.apiKey,
     ⟨jsOr config.modelName ("llama3.2".data), createMessageList request,
      jsStreaming request, config.temperature, config.maxTokens⟩⟩

/-- OllamaProvider.continueChat (part_000 lines 59-83). -/
def ollamaContinueChat (request : ChatRequest) (config : ProviderConfig) :
    CallStart OllamaChatBody :=
  .request
    ⟨jsOr config.baseUrl ("http://localhost:11434".data) ++ ("/api/chat".data),
     truthy config.apiKey,
     ⟨jsOr config.modelName ("llama3.2".data), continueMessageList request,
      jsStreaming request, config.temperature, config.maxTokens⟩⟩

/-- The config OllamaCloudProvider passes down: explicit baseUrl or the
cloud default (part_000 lines 334-337). -/
def ollamaCloudConfig (config : ProviderConfig) : ProviderConfig :=
  { config with baseUrl := some (jsOr config.baseUrl ("https://ollama.com".data)) }

def ollamaCloudKeyError : Str :=
  ("Ollama Cloud requires an API key. Please configure your API key in settings.".data)

/-- OllamaCloudProvider.createChat (part_000 lines 329-347): reject a
missing credential before delegating to the base adapter. -/
def ollamaCloudCreateChat (request : ChatRequest) (config : ProviderConfig) :
    CallStart OllamaChatBody :=
  if !truthy (ollamaCloudConfig config).apiKey then
    .configError ollamaCloudKeyError
  else
    ollamaCreateChat request (ollamaCloudConfig config)

/-- OllamaCloudProvider.continueChat (part_000 lines 349-366). -/
def ollamaCloudContinueChat (request : ChatRequest) (config : ProviderConfig) :
    CallStart OllamaChatBody :=
  if !truthy (ollamaCloudConfig config).apiKey then
    .configError ollamaCloudKeyError
  else
    ollamaContinueChat request (ollamaCloudConfig config)

def llamaKeyError : Str :=
  ("Llama API key is required. Please configure your API key in settings.".data)

/-- LlamaProvider.createChat (llama-provider lines 24-57): the missing
credential is rejected before the request; the configured baseUrl is the
full endpoint URL. -/
def llamaCreateChat (request : ChatRequest) (config : ProviderConfig) :
    CallStart OpenAIChatBody :=
  if !truthy config.apiKey then
    .configError llamaKeyError
  else
    .request
      ⟨jsOr config.baseUrl ("https://api.llama-api.com/v1/chat/completions".data),
       true,
       ⟨jsOr config.modelName ("llama3.2-1b".data), createMessageList request,
        numOr config.temperature (7 / 10), natOr config.maxTokens 2000,
        jsStreaming request⟩⟩

/-- LlamaProvider.continueChat (llama-provider lines 59-96). -/
def llamaContinueChat (request : ChatRequest) (config : ProviderConfig) :
    CallStart OpenAIChatBody :=
  if !truthy config.apiKey then
    .configError llamaKeyError
  else
    .request
      ⟨jsOr config.baseUrl ("https://api.llama-api.com/v1/chat/completions".data),
       true,
       ⟨jsOr config.modelName ("llama3.2-1b".data), continueMessageList request,
        numOr config.temperature (7 / 10), natOr config.maxTokens 2000,
        jsStreaming request⟩⟩

/-- LMStudioProvider.createChat (part_001 lines 171-190): no credential
check and no auth header at all. -/
def lmstudioCreateChat (request : ChatRequest) (config : ProviderConfig) :
    CallStart OpenAIChatBody :=
  .request
    ⟨jsOr config.baseUrl ("http://localhost:1234".data) ++ ("/v1/chat/completions".data),
     false,
     ⟨jsOr config.modelName ("local-model".data), createMessageList request,
      numOr config.temperature (7 / 10), natOr config.maxTokens 2000,
      jsStreaming request⟩⟩

/-- LMStudioProvider.continueChat (part_001 lines 192-215). -/
def lmstudioContinueChat (request : ChatRequest) (config : ProviderConfig) :
    CallStart OpenAIChatBody :=
  .request
    ⟨jsOr config.baseUrl ("http://localhost:1234".data) ++ ("/v1/chat/completions".data),
     false,
     ⟨jsOr config.modelName ("local-model".data), continueMessageList request,
      numOr config.temperature (7 / 10), natOr config.maxTokens 2000,
      jsStreaming request⟩⟩

/-- The attachments object spread of the v0 SDK calls: included only when
present and non-empty. -/
def v0Attachments (request : ChatRequest) : Option (List Attachment) :=
  match request.attachments with
  | none => none
  | some l => if l.length > 0 then some l else none

/-- V0Provider.createChat (v0-provider lines 12-40): builds the SDK
client (apiKey optional, env fallback) and calls chats.create with NO
credential check of its own. -/
def v0CreateChat (request : ChatRequest) (config : ProviderConfig) :
    CallStart V0CreateParams :=
  .request
    ⟨"v0-sdk:chats.create".data,
     truthy config.apiKey,
     ⟨request.message,
      (if jsStreaming request then "experimental_stream".data else "sync".data),
      v0Attachments request⟩⟩

def v0ChatIdError : Str := ("Chat ID is required for continuing chat".data)

/-- V0Provider.continueChat (v0-provider lines 42-75): requires a chat
id, but performs no credential check. -/
def v0ContinueChat (request : ChatRequest) (config : ProviderConfig) :
    CallStart V0SendParams :=
  if !truthy request.chatId then
    .configError v0ChatIdError
  else
    .request
      ⟨"v0-sdk:chats.sendMessage".data,
       truthy config.apiKey,
       ⟨request.chatId.getD [], request.message,
        (if jsStreaming request then some ("experimental_stream".data) else none),
        v0Attachments request⟩⟩

/-- Catalog entry of ProviderFactory.getAllProviders (part_001 lines
24-67). -/
structure ProviderMeta where
  id : Str
  name : Str
  description : Str
  requiresApiKey : Bool
  defaultBaseUrl : Option Str
deriving DecidableEq

/-- ProviderFactory.getAllProviders (part_001 lines 24-67). -/
def getAllProviders : List ProviderMeta :=
  [⟨"v0".data, "v0.dev".data,
    ("Vercel v0 - AI-powered React component generator".data), true, none⟩,
   ⟨"ollama".data, ("Ollama (Local)".data),
    ("Run Llama models locally on your machine".data), false,
    some ("http://localhost:11434".data)⟩,
   ⟨"ollama-cloud".data, ("Ollama Cloud".data),
    ("Ollama hosted in the cloud".data), true,
    some ("https://ollama.com".data)⟩,
   ⟨"lmstudio".data, ("LM Studio".data),
    ("Local LLM inference with LM Studio".data), false,
    some ("http://localhost:1234".data)⟩,
   ⟨"llama".data, ("Meta Llama API".data),
    ("Official Meta Llama API".data), true,
    some ("https://api.llama-api.com".data)⟩]

/-- Outcome of an upstream fetch, as observed by the adapter: a network
failure, or a response with a success flag, a status and a body that
either parses to the expected shape or does not. -/
inductive FetchOutcome (β : Type) where
  | networkError (msg : Str)
  | response (ok : Bool) (status : Nat) (body : Option β)
deriving DecidableEq

/-- A fetch outcome that counts as a failure of the model-listing
request: network error, non-success status, or unparsable body. -/
def FetchOutcome.isFailure : FetchOutcome β → Bool
  | .networkError _ => true
  | .response ok _ body => !ok || body.isNone

/-- One entry of the tags listing ({name}). -/
structure OllamaTagModel where
  name : Str
deriving DecidableEq

/-- Parsed body of GET /api/tags; the models field may be absent. -/
structure OllamaTagsBody where
  models : Option (List OllamaTagModel)
deriving DecidableEq

/-- The hard-coded fallback list of OllamaProvider.listModels (part_000
line 111). -/
def ollamaFallbackModels : List Str :=
  ["llama3.2".data, "llama3.1".data, "mistral".data, "codellama".data]

/-- Request issued by OllamaProvider.listModels (part_000 lines 85-98):
GET baseUrl/api/tags, bearer header only when an apiKey is present. -/
def ollamaListModelsRequest (config : ProviderConfig) : Str × Bool :=
  (jsOr config.baseUrl ("http://localhost:11434".data) ++ ("/api/tags".data),
   truthy config.apiKey)

/-- Response handling of OllamaProvider.listModels (part_000 lines
100-112): non-success status and parse failures are thrown inside the
try and caught, yielding the fallback; a parsed body maps the model
names (an absent models field yields the empty list). -/
def ollamaListModels (outcome : FetchOutcome OllamaTagsBody) : List Str :=
  match outcome with
  | .networkError _ => ollamaFallbackModels
  | .response ok _ body =>
    if !ok then ollamaFallbackModels
    else
      match body with
      | none => ollamaFallbackModels
      | some d =>
        match d.models with
        | none => []
        | some ms => ms.map (fun m => m.name)

/-- OllamaCloudProvider.listModels (part_000 lines 368-374): same
handler, base URL defaulted to the cloud endpoint; no credential
check. -/
def ollamaCloudListModelsRequest (config : ProviderConfig) : Str × Bool :=
  ollamaListModelsRequest (ollamaCloudConfig config)

def ollamaCloudListModels (outcome : FetchOutcome OllamaTagsBody) : List Str :=
  ollamaListModels outcome

/-- One entry of the LM Studio model listing ({id}). -/
structure LMStudioModel where
  id : Str
deriving DecidableEq

/-- Parsed body of GET /v1/models; the data field may be absent. -/
structure LMStudioModelsBody where
  data : Option (List LMStudioModel)
deriving DecidableEq

def lmstudioFallbackModels : List Str := ["local-model".data]

/-- Request issued by LMStudioProvider.listModels (part_001 lines
217-221): GET baseUrl/v1/models, never authenticated. -/
def lmstudioListModelsRequest (config : ProviderConfig) : Str × Bool :=
  (jsOr config.baseUrl ("http://localhost:1234".data) ++ ("/v1/models".data), false)

/-- Response handling of LMStudioProvider.listModels (part_001 lines
220-227): there is NO response.ok check; only a network error or a body
that fails to parse reaches the catch and yields the fallback.  A
response whose body parses is used regardless of HTTP status. -/
def lmstudioListModels (outcome : FetchOutcome LMStudioModelsBody) : List Str :=
  match outcome with
  | .networkError _ => lmstudioFallbackModels
  | .response _ _ body =>
    match body with
    | none => lmstudioFallbackModels
    | some d =>
      match d.data with
      | none => []
      | some ms => ms.map (fun m => m.id)

/-- LlamaProvider.listModels (llama-provider lines 98-107): a constant
list, no request at all. -/
def llamaListModels : List Str :=
  ["llama3.2-1b".data, "llama3.2-3b".data, "llama3.1-8b".data,
   "llama3.1-70b".data, "llama3.1-405b".data]

/-- V0Provider.listModels (v0-provider lines 77-80): a constant list. -/
def v0ListModels : List Str := ["v0-default".data]

/-- Outbound stream events, one per enqueued SSE frame: the metadata
object, a delta frame carrying the full re-formatted Document, the
Llama/LM Studio text frame, the literal DONE frame, and the terminal
controller error. -/
inductive OutEvent where
  | metadata (id : Str)
  | delta (content : List Block)
  | text (content : Str)
  | done
  | error (msg : Str)
deriving DecidableEq

def OutEvent.isMeta : OutEvent → Bool
  | .metadata _ => true
  | _ => false

def OutEvent.isTerminal : OutEvent → Bool
  | .done => true
  | .error _ => true
  | _ => false

def OutEvent.isDone : OutEvent → Bool
  | .done => true
  | _ => false

/-- The Documents carried by the delta events of a stream, in order. -/
def deltaDocs (evs : List OutEvent) : List (List Block) :=
  evs.filterMap (fun e =>
    match e with
    | .delta d => some d
    | _ => none)

/-- The fields of a parsed newline-JSON stream line that the loop reads
(parsed.message?.content, part_000 line 258); message is optional
because the code guards it with optional chaining. -/
structure OllamaStreamPayload where
  message : Option OllamaMessage
deriving DecidableEq

/-- The loop-local accumulator of OllamaProvider.streamChat (part_000
lines 240-241): the full accumulated text and the current formatted
content. -/
structure OllamaStreamAcc where
  fullContent : Str
  currentFormatted : List Block
deriving DecidableEq

def initOllamaAcc : OllamaStreamAcc := ⟨[], []⟩

/-- createDelta (part_000 lines 25-32): simply returns the full new
content. -/
def createDelta (oldContent newContent : List Block) : List Block :=
  newContent

/-- Processing of one complete line in OllamaProvider.streamChat
(part_000 lines 254-284): blank lines are skipped; a line that fails to
parse is logged and skipped; a payload without content is skipped; a
content-bearing payload extends the accumulator, reformats the whole
text and emits one delta frame.  JSON.parse is the platform parser,
modelled as an abstract partial function with a thrown failure as
none. -/
def ollamaProcessLine (parse : Str → Option OllamaStreamPayload)
    (acc : OllamaStreamAcc) (line : Str) : OllamaStreamAcc × List OutEvent :=
  if (trim line).isEmpty then (acc, [])
  else
    match parse line with
    | none => (acc, [])
    | some payload =>
      match payload.message with
      | none => (acc, [])
      | some m =>
        if m.content.isEmpty then (acc, [])
        else
          (⟨acc.fullContent ++ m.content,
            formatContentAsMessageBinaryFormat (acc.fullContent ++ m.content)⟩,
           [.delta (createDelta acc.currentFormatted
              (formatContentAsMessageBinaryFormat (acc.fullContent ++ m.content)))])

/-- One iteration of the Ollama read loop: decode the chunk into
complete lines, then process each line. -/
def ollamaStreamChunkStep (parse : Str → Option OllamaStreamPayload)
    (s : StreamDecodeState × OllamaStreamAcc) (chunk : List Nat) :
    (StreamDecodeState × OllamaStreamAcc) × List OutEvent :=
  (((decodeChunkStep s.1 chunk).1,
    (accumFold (ollamaProcessLine parse) s.2 (decodeChunkStep s.1 chunk).2).1),
   (accumFold (ollamaProcessLine parse) s.2 (decodeChunkStep s.1 chunk).2).2)

/-- The whole Ollama read loop over the upstream byte chunks. -/
def ollamaStreamLoop (parse : Str → Option OllamaStreamPayload)
    (s : StreamDecodeState × OllamaStreamAcc) (chunks : List (List Nat)) :
    (StreamDecodeState × OllamaStreamAcc) × List OutEvent :=
  accumFold (ollamaStreamChunkStep parse) s chunks

/-- The full outbound event sequence of OllamaProvider.streamChat
(part_000 lines 177-297): the metadata frame is enqueued first, before
the upstream fetch; then any failure (network error, non-success
status, missing body) reaches the catch and errors the controller,
while a streamed body is decoded and processed line by line, followed
by the DONE frame. -/
def ollamaStreamEvents (parse : Str → Option OllamaStreamPayload)
    (chatId : Str) (outcome : FetchOutcome (List (List Nat))) :
    List OutEvent :=
  OutEvent.metadata chatId ::
    (match outcome with
     | .networkError msg => [.error msg]
     | .response ok _ body =>
       if !ok then [.error ("Ollama API error".data)]
       else
         match body with
         | none => [.error ("No response body".data)]
         | some chunks =>
           (ollamaStreamLoop parse (initDecodeState, initOllamaAcc) chunks).2
             ++ [.done])

/-- Optional-chain shapes of the SSE stream payloads
(parsed.choices?.[0]?.delta?.content). -/
structure SSEDelta where
  content : Option Str
deriving DecidableEq

structure SSEChoice where
  delta : Option SSEDelta
deriving DecidableEq

structure SSEChunk where
  choices : Option (List SSEChoice)
deriving DecidableEq

/-- The optional chain parsed.choices?.[0]?.delta?.content. -/
def sseChunkContent (c : SSEChunk) : Option Str :=
  match c.choices with
  | none => none
  | some cs =>
    match cs.head? with
    | none => none
    | some ch =>
      match ch.delta with
      | none => none
      | some d => d.content

/-- Processing of one complete line in LlamaProvider.streamChat
(llama-provider lines 210-227): only lines whose trim starts with the
SSE marker are considered; the DONE token is skipped; a payload that
fails to parse is logged and skipped; truthy content yields one text
frame.  No accumulator, no Document, no metadata. -/
def llamaProcessLine (parseC : Str → Option SSEChunk) (line : Str) :
    List OutEvent :=
  if (trim line).take 6 = ("data: ".data) then
    if (trim line).drop 6 = ("[DONE]".data) then []
    else
      match parseC ((trim line).drop 6) with
      | none => []
      | some ch =>
        match sseChunkContent ch with
        | none => []
        | some c => if c.isEmpty then [] else [.text c]
  else []

def llamaStreamChunkStep (parseC : Str → Option SSEChunk)
    (st : StreamDecodeState) (chunk : List Nat) :
    StreamDecodeState × List OutEvent :=
  ((decodeChunkStep st chunk).1,
   ((decodeChunkStep st chunk).2.map (llamaProcessLine parseC)).flatten)

/-- The full outbound event sequence of LlamaProvider.streamChat
(llama-provider lines 158-237): failures error the controller; a
streamed body yields the text frames; on exhaustion the controller is
closed WITHOUT a DONE frame, and no metadata frame is ever sent. -/
def llamaStreamEvents (parseC : Str → Option SSEChunk)
    (outcome : FetchOutcome (List (List Nat))) : List OutEvent :=
  match outcome with
  | .networkError msg => [.error msg]
  | .response ok _ body =>
    if !ok then [.error ("Llama API error".data)]
    else
      match body with
      | none => [.error ("No response body".data)]
      | some chunks =>
        (accumFold (llamaStreamChunkStep parseC) initDecodeState chunks).2

/-- Processing of one complete line in LMStudioProvider.streamChat
(part_001 lines 321-339); textually identical to the Llama loop. -/
def lmstudioProcessLine (parseC : Str → Option SSEChunk) (line : Str) :
    List OutEvent :=
  if (trim line).take 6 = ("data: ".data) then
    if (trim line).drop 6 = ("[DONE]".data) then []
    else
      match parseC ((trim line).drop 6) with
      | none => []
      | some ch =>
        match sseChunkContent ch with
        | none => []
        | some c => if c.isEmpty then [] else [.text c]
  else []

def lmstudioStreamChunkStep (parseC : Str → Option SSEChunk)
    (st : StreamDecodeState) (chunk : List Nat) :
    StreamDecodeState × List OutEvent :=
  ((decodeChunkStep st chunk).1,
   ((decodeChunkStep st chunk).2.map (lmstudioProcessLine parseC)).flatten)

/-- The full outbound event sequence of LMStudioProvider.streamChat
(part_001 lines 274-348): same shape as the Llama stream - no metadata
frame, no DONE frame. -/
def lmstudioStreamEvents (parseC : Str → Option SSEChunk)
    (outcome : FetchOutcome (List (List Nat))) : List OutEvent :=
  match outcome with
  | .networkError msg => [.error msg]
  | .response ok _ body =>
    if !ok then [.error ("LM Studio API error".data)]
    else
      match body with
      | none => [.error ("No response body".data)]
      | some chunks =>
        (accumFold (lmstudioStreamChunkStep parseC) initDecodeState chunks).2

/-- Synthesized ordinal message identifiers (msg-0, msg-1, ...). -/
def msgId (i : Nat) : Str := ("msg-".data) ++ (toString i).data

/-- One entry of ChatResponse.messages (types.ts lines 112-117). -/
structure ResponseMessage where
  id : Str
  role : Str
  content : Str
  experimental_content : Option (List Block)
deriving DecidableEq

/-- ChatResponse as produced by the self-synthesizing adapters (the demo
field is never set by them). -/
structure ChatResponse where
  id : Str
  messages : List ResponseMessage
deriving DecidableEq

/-- The parsed body of the non-streaming Ollama chat response
(OllamaResponse, part_000 lines 14-18); message is required here, as
syncChat reads data.message.content unguarded. -/
structure OllamaSyncData where
  model : Str
  message : OllamaMessage
  done : Bool
deriving DecidableEq

/-- OllamaProvider.syncChat response mapping (part_000 lines 151-174):
echo every upstream-body turn with ordinal ids, then the assistant turn
carrying the formatted content. -/
def ollamaSyncResponse (chatId : Str) (messages : List OllamaMessage)
    (data : OllamaSyncData) : ChatResponse :=
  ⟨chatId,
   (messages.mapIdx (fun idx msg => ⟨msgId idx, msg.role, msg.content, none⟩))
     ++ [⟨msgId messages.length, "assistant".data, data.message.content,
          some (formatContentAsMessageBinaryFormat data.message.content)⟩]⟩

/-- Choice of the SSE-JSON sync responses (LlamaResponse /
LMStudioResponse). -/
structure OpenAIChoice where
  message : OllamaMessage
  finish_reason : Str
deriving DecidableEq

structure OpenAISyncData where
  id : Str
  choices : List OpenAIChoice
deriving DecidableEq

/-- LlamaProvider.syncChat response mapping (llama-provider lines
138-155).  data.choices[0] on an empty choices list throws (modelled as
none); the assistant turn carries NO experimental_content. -/
def llamaSyncResponse (chatId : Str) (messages : List OllamaMessage)
    (data : OpenAISyncData) : Option ChatResponse :=
  match data.choices.head? with
  | none => none
  | some choice =>
    some ⟨chatId,
      (messages.mapIdx (fun idx msg => ⟨msgId idx, msg.role, msg.content, none⟩))
        ++ [⟨msgId messages.length, "assistant".data,
             choice.message.content, none⟩]⟩

/-- LMStudioProvider.syncChat response mapping (part_001 lines 254-271);
identical to the Llama mapping. -/
def lmstudioSyncResponse (chatId : Str) (messages : List OllamaMessage)
    (data : OpenAISyncData) : Option ChatResponse :=
  match data.choices.head? with
  | none => none
  | some choice =>
    some ⟨chatId,
      (messages.mapIdx (fun idx msg => ⟨msgId idx, msg.role, msg.content, none⟩))
        ++ [⟨msgId messages.length, "assistant".data,
             choice.message.content, none⟩]⟩

/-- The Document attached to the final (assistant) turn of a response. -/
def assistantDoc (r : ChatResponse) : Option (List Block) :=
  r.messages.getLast?.bind (fun m => m.experimental_content)

/-- The Document carried by the last delta event of a stream. -/
def lastDeltaDoc (evs : List OutEvent) : Option (List Block) :=
  (deltaDocs evs).getLast?

/-- Helper for witnesses: ASCII text as its byte sequence. -/
def asciiBytes (s : String) : List Nat := s.data.map Char.toNat

theorem trim_eq_nil_iff (s : Str) :
    trim s = [] ↔ ∀ c ∈ s, jsWhitespace c = true := by
  unfold trim
  rw [List.reverse_eq_nil_iff, List.dropWhile_eq_nil_iff]
  constructor
  · intro h c hc
    rcases List.mem_append.mp
        ((List.takeWhile_append_dropWhile (p := jsWhitespace) (l := s)) ▸ hc) with h1 | h2
    · exact List.mem_takeWhile_imp h1
    · exact h c (List.mem_reverse.mpr h2)
  · intro h c hc
    exact h c ((List.dropWhile_sublist _).mem (List.mem_reverse.mp hc))

theorem splitOnNN_ne_nil (s : Str) : splitOnNN s ≠ [] := by
  match s with
  | [] => simp [splitOnNN]
  | [c] => simp [splitOnNN]
  | c1 :: c2 :: rest =>
    unfold splitOnNN
    split
    · simp
    · split <;> simp

/-- If every piece of the blank-line split is all-whitespace, the whole
string is all-whitespace (the separator itself is whitespace). -/
theorem splitOnNN_all_whitespace (s : Str)
    (h : ∀ p ∈ splitOnNN s, ∀ c ∈ p, jsWhitespace c = true) :
    ∀ c ∈ s, jsWhitespace c = true := by
  match s with
  | [] => intro c hc; cases hc
  | [a] =>
    intro c hc
    exact h [a] (by simp [splitOnNN]) c hc
  | c1 :: c2 :: rest =>
    unfold splitOnNN at h
    by_cases hnn : c1 = '\n' ∧ c2 = '\n'
    · rw [if_pos hnn] at h
      have ih := splitOnNN_all_whitespace rest (fun p hp => h p (by simp [hp]))
      intro c hc
      rcases List.mem_cons.mp hc with h1 | hc2
      · rw [h1, hnn.1]; decide
      · rcases List.mem_cons.mp hc2 with h2 | hc3
        · rw [h2, hnn.2]; decide
        · exact ih c hc3
    · rw [if_neg hnn] at h
      cases hsplit : splitOnNN (c2 :: rest) with
      | nil => exact absurd hsplit (splitOnNN_ne_nil _)
      | cons p ps =>
        rw [hsplit] at h
        simp only [List.mem_cons] at h
        have ih := splitOnNN_all_whitespace (c2 :: rest) (fun q hq => by
          rw [hsplit] at hq
          rcases List.mem_cons.mp hq with hqe | hq2
          · exact fun c hc => h (c1 :: q) (Or.inl (by rw [hqe])) c (by simp [hc])
          · exact h q (Or.inr hq2))
        intro c hc
        rcases List.mem_cons.mp hc with h1 | hc2
        · exact h (c1 :: p) (Or.inl rfl) c (by simp [h1])
        · exact ih c hc2

theorem trimmed_paragraphs_ne_nil (content : Str) (h : trim content ≠ []) :
    (splitOnNN content).filter (fun p => !(trim p).isEmpty) ≠ [] := by
  intro hfil
  apply h
  rw [trim_eq_nil_iff]
  apply splitOnNN_all_whitespace
  intro p hp
  have hall := List.filter_eq_nil_iff.mp hfil p hp
  simp only [Bool.not_eq_true', Bool.not_eq_false] at hall
  have : trim p = [] := by
    simpa [List.isEmpty_iff] using hall
  rw [trim_eq_nil_iff] at this
  exact this

/-- C3: the Content Formatter returns exactly the blank-line-separated
paragraphs of the input that are non-empty after trimming, in order, each
wrapped as a type-0 block; and any input that is non-empty after trimming
yields a non-empty Document. -/
theorem c3_formatter_spec (content : Str) :
    formatContentAsMessageBinaryFormat content
      = ((splitOnNN content).filter (fun p => !(trim p).isEmpty)).map
          (fun p => Block.mk 0 (trim p)) ∧
    (trim content ≠ [] → formatContentAsMessageBinaryFormat content ≠ []) := by
  constructor
  · unfold formatContentAsMessageBinaryFormat
    by_cases h : trim content = []
    · simp [h, List.isEmpty_iff]
    · have hp := trimmed_paragraphs_ne_nil content h
      simp [List.isEmpty_iff, hp]
  · intro h
    have hp := trimmed_paragraphs_ne_nil content h
    unfold formatContentAsMessageBinaryFormat
    simp [List.isEmpty_iff, hp]

/-- C3 witness: the theorem instantiated at a concrete two-paragraph
input, with its hypothesis discharged by evaluation. -/
theorem c3_formatter_spec_witness :
    formatContentAsMessageBinaryFormat ("Hello\n\nWorld".data) ≠ [] :=
  (c3_formatter_spec ("Hello\n\nWorld".data)).2 (by decide)

theorem accumFold_nil (g : σ → α → σ × List β) (s : σ) :
    accumFold g s [] = (s, []) := rfl

theorem accumFold_shift (g : σ → α → σ × List β) (xs : List α) (s : σ)
    (o : List β) :
    xs.foldl (fun acc x => ((g acc.1 x).1, acc.2 ++ (g acc.1 x).2)) (s, o)
      = ((accumFold g s xs).1, o ++ (accumFold g s xs).2) := by
  induction xs generalizing s o with
  | nil => simp [accumFold]
  | cons x xs ih =>
    simp only [accumFold, List.foldl_cons, List.nil_append]
    rw [ih (g s x).1 (o ++ (g s x).2), ih (g s x).1 (g s x).2]
    simp

theorem accumFold_cons (g : σ → α → σ × List β) (s : σ) (x : α) (xs : List α) :
    accumFold g s (x :: xs)
      = ((accumFold g (g s x).1 xs).1,
         (g s x).2 ++ (accumFold g (g s x).1 xs).2) := by
  simp only [accumFold, List.foldl_cons, List.nil_append]
  exact accumFold_shift g xs (g s x).1 (g s x).2

theorem accumFold_append (g : σ → α → σ × List β) (s : σ) (xs ys : List α) :
    accumFold g s (xs ++ ys)
      = ((accumFold g (accumFold g s xs).1 ys).1,
         (accumFold g s xs).2 ++ (accumFold g (accumFold g s xs).1 ys).2) := by
  induction xs generalizing s with
  | nil => simp [accumFold_nil]
  | cons x xs ih =>
    rw [List.cons_append, accumFold_cons, accumFold_cons, ih]
    simp

theorem splitOn_pieces_no_sep (c : Char) (l : Str) :
    ∀ p ∈ l.splitOn c, c ∉ p := by
  induction l with
  | nil =>
    intro p hp
    simp only [List.splitOn, List.splitOnP_nil, List.mem_singleton] at hp
    simp [hp]
  | cons a l ih =>
    intro p hp
    simp only [List.splitOn, List.splitOnP_cons] at hp
    by_cases hac : a == c
    · rw [if_pos hac] at hp
      rcases List.mem_cons.mp hp with h1 | h2
      · simp [h1]
      · exact ih p h2
    · rw [if_neg hac] at hp
      cases hrec : l.splitOn c with
      | nil => exact absurd hrec (List.splitOnP_ne_nil _ _)
      | cons q qs =>
        simp only [List.splitOn] at hrec
        rw [hrec, List.modifyHead] at hp
        rcases List.mem_cons.mp hp with h1 | h2
        · intro hcp
          rw [h1] at hcp
          rcases List.mem_cons.mp hcp with h3 | h4
          · exact hac (by simp [h3])
          · exact ih q (by rw [← List.splitOn] at hrec; simp [hrec]) h4
        · exact ih p (by rw [← List.splitOn] at hrec; simp [hrec, h2])

theorem splitOn_append_no_sep (a b : Str) (h : '\n' ∉ a) :
    (a ++ b).splitOn '\n' = List.modifyHead (a ++ ·) (b.splitOn '\n') := by
  induction a with
  | nil =>
    cases hb : b.splitOn '\n' with
    | nil => exact absurd hb (List.splitOnP_ne_nil _ _)
    | cons q qs => simp [hb, List.modifyHead]
  | cons x a ih =>
    have hx : ¬(x == '\n') := by
      intro hxe
      exact h (by simp [eq_of_beq hxe])
    simp only [List.cons_append, List.splitOn, List.splitOnP_cons, if_neg hx]
    rw [← List.splitOn, ih (fun hmem => h (List.mem_cons_of_mem x hmem))]
    cases hb : List.splitOnP (fun y => y == '\n') b with
    | nil => exact absurd hb (List.splitOnP_ne_nil _ _)
    | cons q qs =>
      simp [List.splitOn, hb, List.modifyHead]

theorem splitOn_no_sep (a : Str) (h : '\n' ∉ a) : a.splitOn '\n' = [a] := by
  have := splitOn_append_no_sep a [] h
  simpa [List.splitOn, List.splitOnP_nil, List.modifyHead] using this

/-- The source per-chunk split-and-rebuffer step equals the
character-level fold, provided the carry-over buffer holds no newline. -/
theorem feedChunkLines_eq_charFeed (text buf : Str) (h : '\n' ∉ buf) :
    feedChunkLines buf text = lineCharFeed buf text := by
  induction text generalizing buf with
  | nil =>
    simp [feedChunkLines, lineCharFeed, accumFold_nil, splitOn_no_sep _ h]
  | cons c text ih =>
    by_cases hc : c = '\n'
    · subst hc
      have hstep : lineStep buf '\n' = ([], [buf]) := by simp [lineStep]
      have hrhs : lineCharFeed buf ('\n' :: text)
          = ((lineCharFeed [] text).1, buf :: (lineCharFeed [] text).2) := by
        unfold lineCharFeed
        rw [accumFold_cons, hstep]
        simp
      rw [hrhs, ← ih [] (by simp)]
      have hfirst := List.splitOnP_first (fun x => x == '\n') buf
        (fun x hx hbx => h (by rw [← eq_of_beq hbx]; exact hx)) '\n' (by simp) text
      unfold feedChunkLines
      simp only [List.splitOn, List.nil_append] at hfirst ⊢
      rw [hfirst]
      cases htx : List.splitOnP (fun x => x == '\n') text with
      | nil => exact absurd htx (List.splitOnP_ne_nil _ _)
      | cons q qs => simp [List.getLastD_cons]
    · have hbc : '\n' ∉ buf ++ [c] := by
        intro hmem
        rcases List.mem_append.mp hmem with h1 | h2
        · exact h h1
        · exact hc (by simpa [eq_comm] using h2)
      have hstep : lineStep buf c = (buf ++ [c], []) := by simp [lineStep, hc]
      have hrhs : lineCharFeed buf (c :: text) = lineCharFeed (buf ++ [c]) text := by
        unfold lineCharFeed
        rw [accumFold_cons, hstep]
        simp
      rw [hrhs, ← ih (buf ++ [c]) hbc]
      unfold feedChunkLines
      simp [List.append_assoc]

theorem lineCharFeed_no_newline (cs buf : Str) (h : '\n' ∉ buf) :
    '\n' ∉ (lineCharFeed buf cs).1 := by
  induction cs generalizing buf with
  | nil => simpa [lineCharFeed, accumFold_nil] using h
  | cons c cs ih =>
    unfold lineCharFeed
    rw [accumFold_cons]
    by_cases hc : c = '\n'
    · simpa [lineStep, hc, lineCharFeed] using ih [] (by simp)
    · have hbc : '\n' ∉ buf ++ [c] := by
        intro hmem
        rcases List.mem_append.mp hmem with h1 | h2
        · exact h h1
        · exact hc (by simpa [eq_comm] using h2)
      simpa [lineStep, hc, lineCharFeed] using ih (buf ++ [c]) hbc

theorem feedChunkLines_no_newline (buf text : Str) :
    '\n' ∉ (feedChunkLines buf text).1 := by
  unfold feedChunkLines
  intro hmem
  cases hs : (buf ++ text).splitOn '\n' with
  | nil => exact absurd hs (List.splitOnP_ne_nil _ _)
  | cons q qs =>
    rw [hs] at hmem
    have hne : q :: qs ≠ [] := List.cons_ne_nil q qs
    have hlast : (q :: qs).getLastD [] = (q :: qs).getLast hne := by
      rw [List.getLastD_eq_getLast?, List.getLast?_eq_getLast_of_ne_nil hne]
      rfl
    rw [hlast] at hmem
    refine splitOn_pieces_no_sep '\n' (buf ++ text) _ ?_ hmem
    rw [hs]
    exact List.getLast_mem hne

theorem decodeChunkStep_eq_C (st : StreamDecodeState) (chunk : List Nat)
    (h : '\n' ∉ st.buffer) :
    decodeChunkStep st chunk = decodeChunkStepC st chunk := by
  simp only [decodeChunkStep, decodeChunkStepC,
    feedChunkLines_eq_charFeed _ _ h]

theorem decodeChunkStepC_cons (st : StreamDecodeState) (b : Nat)
    (bs : List Nat) :
    decodeChunkStepC st (b :: bs)
      = ((decodeChunkStepC (decodeByteStep st b).1 bs).1,
         (decodeByteStep st b).2
           ++ (decodeChunkStepC (decodeByteStep st b).1 bs).2) := by
  simp only [decodeChunkStepC, decodeByteStep]
  unfold utf8FeedBytes
  rw [accumFold_cons]
  unfold lineCharFeed
  rw [accumFold_append]

theorem decodeChunkStepC_eq_bytes (chunk : List Nat) (st : StreamDecodeState) :
    decodeChunkStepC st chunk = decodeBytes st chunk := by
  induction chunk generalizing st with
  | nil =>
    simp [decodeChunkStepC, decodeBytes, utf8FeedBytes, lineCharFeed,
      accumFold_nil]
  | cons b bs ih =>
    rw [decodeChunkStepC_cons, ih]
    unfold decodeBytes
    rw [accumFold_cons]

theorem decodeChunkStep_no_newline (st : StreamDecodeState)
    (chunk : List Nat) : '\n' ∉ (decodeChunkStep st chunk).1.buffer := by
  simp only [decodeChunkStep]
  exact feedChunkLines_no_newline _ _

theorem decodeChunks_eq_decodeBytes (chunks : List (List Nat))
    (st : StreamDecodeState) (h : '\n' ∉ st.buffer) :
    decodeChunks st chunks = decodeBytes st chunks.flatten := by
  induction chunks generalizing st with
  | nil => simp [decodeChunks, decodeBytes, accumFold_nil]
  | cons c cs ih =>
    have h1 : decodeChunks st (c :: cs)
        = ((decodeChunks (decodeChunkStep st c).1 cs).1,
           (decodeChunkStep st c).2
             ++ (decodeChunks (decodeChunkStep st c).1 cs).2) := by
      unfold decodeChunks
      rw [accumFold_cons]
    have h2 : decodeBytes st (c :: cs).flatten
        = ((decodeBytes (decodeBytes st c).1 cs.flatten).1,
           (decodeBytes st c).2
             ++ (decodeBytes (decodeBytes st c).1 cs.flatten).2) := by
      rw [List.flatten_cons]
      unfold decodeBytes
      rw [accumFold_append]
    have h3 : decodeChunkStep st c = decodeBytes st c :=
      (decodeChunkStep_eq_C st c h).trans (decodeChunkStepC_eq_bytes c st)
    rw [h1, h2, ← h3, ih _ (decodeChunkStep_no_newline st c)]

/-- C4: for any raw framing payload and any two partitions of it into
chunks (including partitions splitting a line or a multi-byte character
across boundaries), the stream-decoding loop produces the same decoded
complete logical lines and the same final decoder state. -/
theorem c4_chunk_split_invariance (chunks1 chunks2 : List (List Nat))
    (h : chunks1.flatten = chunks2.flatten) :
    decodeChunks initDecodeState chunks1 = decodeChunks initDecodeState chunks2 := by
  rw [decodeChunks_eq_decodeBytes _ _ (by simp [initDecodeState]),
    decodeChunks_eq_decodeBytes _ _ (by simp [initDecodeState]), h]

/-- C4 witness: the two-byte character 0xC3 0xA9 split across a chunk
boundary in the first partition but not the second; both partitions
yield the same complete line and re-buffered fragment. -/
theorem c4_chunk_split_invariance_witness :
    decodeChunks initDecodeState [[0xC3], [0xA9, 10, 0x78]]
      = decodeChunks initDecodeState [[0xC3, 0xA9, 10], [0x78]] :=
  c4_chunk_split_invariance [[0xC3], [0xA9, 10, 0x78]]
    [[0xC3, 0xA9, 10], [0x78]] (by decide)

/-- C6 counterexample: the v0 catalog entry requires an API key, yet
V0Provider.createChat called with a config lacking an apiKey does not
raise a configuration error: it proceeds to the SDK (network) call. -/
theorem c6_counterexample :
    (∃ p ∈ getAllProviders, p.id = ("v0".data) ∧ p.requiresApiKey = true) ∧
    v0CreateChat ⟨"hi".data, none, none, some false, none⟩ ⟨none, none, none, none, none⟩
      = .request ⟨"v0-sdk:chats.create".data, false, ⟨"hi".data, "sync".data, none⟩⟩ := by
  constructor
  · exact ⟨⟨"v0".data, "v0.dev".data,
      ("Vercel v0 - AI-powered React component generator".data), true, none⟩,
      by simp [getAllProviders], rfl, rfl⟩
  · rfl

/-- C6 amended: the llama and ollama-cloud adapters reject a missing
(or empty, hence falsy) apiKey with a descriptive configuration error
before issuing any network request, for createChat and continueChat
alike; the v0 adapter performs no such check and delegates credential
resolution to its SDK. -/
theorem c6_missing_key_fails_fast (request : ChatRequest)
    (config : ProviderConfig) (h : truthy config.apiKey = false) :
    llamaCreateChat request config = .configError llamaKeyError ∧
    llamaContinueChat request config = .configError llamaKeyError ∧
    ollamaCloudCreateChat request config = .configError ollamaCloudKeyError ∧
    ollamaCloudContinueChat request config = .configError ollamaCloudKeyError ∧
    (∃ post, v0CreateChat request config = .request post) := by
  have hcloud : truthy (ollamaCloudConfig config).apiKey = false := h
  refine ⟨?_, ?_, ?_, ?_, ?_⟩
  · simp [llamaCreateChat, h]
  · simp [llamaContinueChat, h]
  · simp [ollamaCloudCreateChat, hcloud]
  · simp [ollamaCloudContinueChat, hcloud]
  · exact ⟨_, rfl⟩

/-- C6 witness: the amended theorem at a concrete request and an
apiKey-free config. -/
theorem c6_missing_key_fails_fast_witness :
    llamaCreateChat ⟨"hi".data, none, none, some false, none⟩
        ⟨none, none, none, none, none⟩ = .configError llamaKeyError ∧
    llamaContinueChat ⟨"hi".data, none, none, some false, none⟩
        ⟨none, none, none, none, none⟩ = .configError llamaKeyError ∧
    ollamaCloudCreateChat ⟨"hi".data, none, none, some false, none⟩
        ⟨none, none, none, none, none⟩ = .configError ollamaCloudKeyError ∧
    ollamaCloudContinueChat ⟨"hi".data, none, none, some false, none⟩
        ⟨none, none, none, none, none⟩ = .configError ollamaCloudKeyError ∧
    (∃ post, v0CreateChat ⟨"hi".data, none, none, some false, none⟩
        ⟨none, none, none, none, none⟩ = .request post) :=
  c6_missing_key_fails_fast ⟨"hi".data, none, none, some false, none⟩
    ⟨none, none, none, none, none⟩ (by decide)

/-- C8: every continueChat sends exactly the prior turns, in order and
with role and content preserved, followed by the new user turn, for the
Ollama, LM Studio and Llama adapters (the latter once its credential
check passes). -/
theorem c8_continue_message_order (request : ChatRequest)
    (config : ProviderConfig) (hkey : truthy config.apiKey = true) :
    (∃ post, ollamaContinueChat request config = .request post ∧
      post.body.messages = continueMessageList request) ∧
    (∃ post, lmstudioContinueChat request config = .request post ∧
      post.body.messages = continueMessageList request) ∧
    (∃ post, llamaContinueChat request config = .request post ∧
      post.body.messages = continueMessageList request) ∧
    continueMessageList request
      = (request.messages.getD []).map (fun msg => ⟨msg.role.toStr, msg.content⟩)
          ++ [⟨"user".data, request.message⟩] ∧
    (continueMessageList request).getLast?
      = some ⟨"user".data, request.message⟩ ∧
    (continueMessageList request).take (request.messages.getD []).length
      = (request.messages.getD []).map (fun msg => ⟨msg.role.toStr, msg.content⟩) := by
  refine ⟨?_, ?_, ?_, rfl, ?_, ?_⟩
  · refine ⟨_, rfl, ?_⟩
    rfl
  · refine ⟨_, rfl, ?_⟩
    rfl
  · refine ⟨⟨jsOr config.baseUrl ("https://api.llama-api.com/v1/chat/completions".data),
      true,
      ⟨jsOr config.modelName ("llama3.2-1b".data), continueMessageList request,
       numOr config.temperature (7 / 10), natOr config.maxTokens 2000,
       jsStreaming request⟩⟩, ?_, rfl⟩
    simp [llamaContinueChat, hkey]
  · unfold continueMessageList
    rw [List.getLast?_append_of_ne_nil _ (by simp)]
    rfl
  · unfold continueMessageList
    rw [List.take_left']
    simp

/-- C8 witness: the theorem at Scenario E of the spec: prior turns A
(user) and B (assistant) with new message C. -/
theorem c8_continue_message_order_witness :
    (∃ post, ollamaContinueChat
        ⟨"C".data, none, none, some false,
         some [⟨Role.user, "A".data⟩, ⟨Role.assistant, "B".data⟩]⟩
        ⟨none, some ("k".data), none, none, none⟩ = .request post ∧
      post.body.messages = continueMessageList
        ⟨"C".data, none, none, some false,
         some [⟨Role.user, "A".data⟩, ⟨Role.assistant, "B".data⟩]⟩) ∧
    continueMessageList
        ⟨"C".data, none, none, some false,
         some [⟨Role.user, "A".data⟩, ⟨Role.assistant, "B".data⟩]⟩
      = [⟨"user".data, "A".data⟩, ⟨"assistant".data, "B".data⟩,
         ⟨"user".data, "C".data⟩] :=
  ⟨(c8_continue_message_order
      ⟨"C".data, none, none, some false,
       some [⟨Role.user, "A".data⟩, ⟨Role.assistant, "B".data⟩]⟩
      ⟨none, some ("k".data), none, none, none⟩ (by decide)).1,
   by decide⟩

/-- C9 counterexample: LMStudioProvider.listModels has no response.ok
check, so a non-success status whose body still parses as JSON (for
example an error object, in which the data field is absent) yields the
empty list, not the non-empty hard-coded fallback. -/
theorem c9_counterexample :
    lmstudioListModels (.response false 404 (some ⟨none⟩)) = []
      ∧ lmstudioFallbackModels ≠ [] := by
  exact ⟨rfl, by decide⟩

theorem ollamaListModels_failure (out : FetchOutcome OllamaTagsBody)
    (hfail : out.isFailure = true) :
    ollamaListModels out = ollamaFallbackModels := by
  match out with
  | .networkError msg => rfl
  | .response ok status body =>
    simp only [FetchOutcome.isFailure, Bool.or_eq_true, Bool.not_eq_true',
      Option.isNone_iff_eq_none] at hfail
    rcases hfail with hok | hbody
    · simp [ollamaListModels, hok]
    · cases ok
      · rfl
      · simp [ollamaListModels, hbody]

/-- C9 amended: listModels never propagates an error for any provider
(every handler is total, with all throws absorbed by its catch); the
Ollama family returns its non-empty fallback on every failure (network
error, non-success status, unparsable body); LM Studio returns its
non-empty fallback on network errors and unparsable bodies, but ignores
the HTTP status when the body parses; Llama and v0 return constant
non-empty lists without any request. -/
theorem c9_list_models_fallback (out : FetchOutcome OllamaTagsBody)
    (hfail : out.isFailure = true) :
    ollamaListModels out = ollamaFallbackModels ∧
    ollamaCloudListModels out = ollamaFallbackModels ∧
    ollamaFallbackModels ≠ [] ∧
    (∀ msg, lmstudioListModels (.networkError msg) = lmstudioFallbackModels) ∧
    (∀ ok status, lmstudioListModels (.response ok status none)
        = lmstudioFallbackModels) ∧
    (∀ ok status d, (lmstudioListModels (.response ok status (some d))
        = lmstudioListModels (.response true 200 (some d)))) ∧
    lmstudioFallbackModels ≠ [] ∧
    llamaListModels ≠ [] ∧ v0ListModels ≠ [] := by
  have hollama : ollamaListModels out = ollamaFallbackModels :=
    ollamaListModels_failure out hfail
  exact ⟨hollama, hollama, by decide, fun msg => rfl,
    fun ok status => by cases ok <;> rfl,
    fun ok status d => rfl, by decide, by decide, by decide⟩

/-- C9 witness: the amended theorem at a concrete failing outcome
(non-success status with unparsable body). -/
theorem c9_list_models_fallback_witness :
    ollamaListModels (.response false 500 none) = ollamaFallbackModels ∧
    ollamaFallbackModels ≠ [] :=
  ⟨(c9_list_models_fallback (.response false 500 none) (by decide)).1,
   (c9_list_models_fallback (.response false 500 none) (by decide)).2.2.1⟩

/-- C10: OllamaCloudProvider.listModels performs no credential check:
with no apiKey it still issues the request, unauthenticated and against
the cloud default target, and its handler is total (never raises, always
yielding a plain model list: the fallback on failure, the body-derived
names otherwise) - even though the catalog marks ollama-cloud as
requiring an API key and createChat/continueChat reject that same
config. -/
theorem c10_cloud_list_models_unauthenticated (config : ProviderConfig)
    (hkey : config.apiKey = none) (hbase : config.baseUrl = none) :
    (ollamaCloudListModelsRequest config).2 = false ∧
    (ollamaCloudListModelsRequest config).1 = ("https://ollama.com/api/tags".data) ∧
    (∀ out, out.isFailure = true → ollamaCloudListModels out = ollamaFallbackModels) ∧
    (∀ status ms, ollamaCloudListModels (.response true status (some ⟨some ms⟩))
        = ms.map (fun m => m.name)) ∧
    (∀ status, ollamaCloudListModels (.response true status (some ⟨none⟩)) = []) ∧
    (∃ p ∈ getAllProviders, p.id = ("ollama-cloud".data) ∧ p.requiresApiKey = true) ∧
    (∀ request, ollamaCloudCreateChat request config = .configError ollamaCloudKeyError) ∧
    (∀ request, ollamaCloudContinueChat request config = .configError ollamaCloudKeyError) := by
  have htr : truthy (ollamaCloudConfig config).apiKey = false := by
    simp [ollamaCloudConfig, hkey, truthy]
  refine ⟨?_, ?_, ?_, ?_, ?_, ?_, ?_, ?_⟩
  · simp [ollamaCloudListModelsRequest, ollamaListModelsRequest, htr]
  · simp [ollamaCloudListModelsRequest, ollamaListModelsRequest,
      ollamaCloudConfig, hbase]
    decide
  · intro out hfail
    exact ollamaListModels_failure out hfail
  · intro status ms
    rfl
  · intro status
    rfl
  · exact ⟨⟨"ollama-cloud".data, ("Ollama Cloud".data),
      ("Ollama hosted in the cloud".data), true,
      some ("https://ollama.com".data)⟩, by simp [getAllProviders], rfl, rfl⟩
  · intro request
    simp [ollamaCloudCreateChat, htr]
  · intro request
    simp [ollamaCloudContinueChat, htr]

/-- C10 witness: the theorem at the all-absent config. -/
theorem c10_cloud_list_models_unauthenticated_witness :
    (ollamaCloudListModelsRequest ⟨none, none, none, none, none⟩).2 = false ∧
    (ollamaCloudListModelsRequest ⟨none, none, none, none, none⟩).1
      = ("https://ollama.com/api/tags".data) :=
  ⟨(c10_cloud_list_models_unauthenticated ⟨none, none, none, none, none⟩ rfl rfl).1,
   (c10_cloud_list_models_unauthenticated ⟨none, none, none, none, none⟩ rfl rfl).2.1⟩

theorem accumFold_out_forall (g : σ → α → σ × List β) (P : β → Prop)
    (hg : ∀ s x e, e ∈ (g s x).2 → P e) (s : σ) (xs : List α) :
    ∀ e ∈ (accumFold g s xs).2, P e := by
  induction xs generalizing s with
  | nil => intro e he; simp [accumFold_nil] at he
  | cons x xs ih =>
    intro e he
    rw [accumFold_cons] at he
    rcases List.mem_append.mp he with h1 | h2
    · exact hg s x e h1
    · exact ih (g s x).1 e h2

theorem ollamaProcessLine_cases (parse : Str → Option OllamaStreamPayload)
    (acc : OllamaStreamAcc) (line : Str) :
    ollamaProcessLine parse acc line = (acc, []) ∨
    ∃ c, c ≠ [] ∧ ollamaProcessLine parse acc line
        = (⟨acc.fullContent ++ c,
            formatContentAsMessageBinaryFormat (acc.fullContent ++ c)⟩,
           [.delta (formatContentAsMessageBinaryFormat (acc.fullContent ++ c))]) := by
  unfold ollamaProcessLine
  by_cases h1 : (trim line).isEmpty
  · left; simp [h1]
  · cases hp : parse line with
    | none => left; simp [h1, hp]
    | some payload =>
      cases hm : payload.message with
      | none => left; simp [h1, hp, hm]
      | some m =>
        by_cases h2 : m.content.isEmpty
        · left; simp [h1, hp, hm, h2]
        · right
          refine ⟨m.content, by simpa [List.isEmpty_iff] using h2, ?_⟩
          simp [h1, hp, hm, h2, createDelta]

theorem ollamaProcessLine_only_delta (parse : Str → Option OllamaStreamPayload)
    (acc : OllamaStreamAcc) (line : Str) :
    ∀ e ∈ (ollamaProcessLine parse acc line).2, ∃ d, e = OutEvent.delta d := by
  intro e he
  rcases ollamaProcessLine_cases parse acc line with hc | ⟨c, _, hc⟩ <;>
    rw [hc] at he
  · simp at he
  · simp only [List.mem_singleton] at he
    exact ⟨_, he⟩

theorem ollamaLoop_only_delta (parse : Str → Option OllamaStreamPayload)
    (s : StreamDecodeState × OllamaStreamAcc) (chunks : List (List Nat)) :
    ∀ e ∈ (ollamaStreamLoop parse s chunks).2, ∃ d, e = OutEvent.delta d := by
  refine accumFold_out_forall _ _ ?_ s chunks
  intro s x e he
  simp only [ollamaStreamChunkStep] at he
  exact accumFold_out_forall (ollamaProcessLine parse) _
    (fun acc line => ollamaProcessLine_only_delta parse acc line)
    s.2 (decodeChunkStep s.1 x).2 e he

theorem sseProcessLine_only_text (parseC : Str → Option SSEChunk) (line : Str) :
    (∀ e ∈ llamaProcessLine parseC line, ∃ c, e = OutEvent.text c) ∧
    (∀ e ∈ lmstudioProcessLine parseC line, ∃ c, e = OutEvent.text c) := by
  constructor
  · intro e he
    unfold llamaProcessLine at he
    split at he
    · split at he
      · simp at he
      · split at he
        · simp at he
        · split at he
          · simp at he
          · split at he
            · simp at he
            · simp only [List.mem_singleton] at he
              exact ⟨_, he⟩
    · simp at he
  · intro e he
    unfold lmstudioProcessLine at he
    split at he
    · split at he
      · simp at he
      · split at he
        · simp at he
        · split at he
          · simp at he
          · split at he
            · simp at he
            · simp only [List.mem_singleton] at he
              exact ⟨_, he⟩
    · simp at he

theorem llamaStream_only_text (parseC : Str → Option SSEChunk)
    (chunks : List (List Nat)) :
    ∀ e ∈ (accumFold (llamaStreamChunkStep parseC) initDecodeState chunks).2,
      ∃ c, e = OutEvent.text c := by
  refine accumFold_out_forall _ _ ?_ _ chunks
  intro s x e he
  simp only [llamaStreamChunkStep] at he
  rcases List.mem_flatten.mp he with ⟨l, hl, hel⟩
  rcases List.mem_map.mp hl with ⟨line, _, hline⟩
  rw [← hline] at hel
  exact (sseProcessLine_only_text parseC line).1 e hel

theorem lmstudioStream_only_text (parseC : Str → Option SSEChunk)
    (chunks : List (List Nat)) :
    ∀ e ∈ (accumFold (lmstudioStreamChunkStep parseC) initDecodeState chunks).2,
      ∃ c, e = OutEvent.text c := by
  refine accumFold_out_forall _ _ ?_ _ chunks
  intro s x e he
  simp only [lmstudioStreamChunkStep] at he
  rcases List.mem_flatten.mp he with ⟨l, hl, hel⟩
  rcases List.mem_map.mp hl with ⟨line, _, hline⟩
  rw [← hline] at hel
  exact (sseProcessLine_only_text parseC line).2 e hel

/-- C1 counterexample: a Llama streaming call whose upstream responds
with one well-formed SSE line produces a single text frame and nothing
else: no metadata frame at all, and no done or error terminal - the
stream just closes.  This refutes the claim for the Llama adapter. -/
theorem c1_counterexample :
    llamaStreamEvents
        (fun l => if l = ("J".data)
          then some ⟨some [⟨some ⟨some ("Hi".data)⟩⟩]⟩ else none)
        (.response true 200 (some [("data: J\n".data).map Char.toNat]))
      = [.text ("Hi".data)] ∧
    (llamaStreamEvents
        (fun l => if l = ("J".data)
          then some ⟨some [⟨some ⟨some ("Hi".data)⟩⟩]⟩ else none)
        (.response true 200 (some [("data: J\n".data).map Char.toNat]))).countP
      OutEvent.isMeta = 0 ∧
    (llamaStreamEvents
        (fun l => if l = ("J".data)
          then some ⟨some [⟨some ⟨some ("Hi".data)⟩⟩]⟩ else none)
        (.response true 200 (some [("data: J\n".data).map Char.toNat]))).countP
      OutEvent.isTerminal = 0 := by
  refine ⟨?_, ?_, ?_⟩ <;> decide

/-- C1 amended: for the Ollama and Ollama Cloud adapters every streaming
call emits exactly one metadata event, first, before any delta, and
exactly one terminal done or error, last, with no event after it; the
Llama and LM Studio adapters emit no metadata and no done event at all
(their streams carry only text frames and end by closing, or by a
terminal error). -/
theorem c1_stream_event_order (parse : Str → Option OllamaStreamPayload)
    (parseL parseM : Str → Option SSEChunk) (chatId : Str)
    (outcome outL outM : FetchOutcome (List (List Nat))) :
    (ollamaStreamEvents parse chatId outcome).head? = some (.metadata chatId) ∧
    (ollamaStreamEvents parse chatId outcome).countP OutEvent.isMeta = 1 ∧
    (ollamaStreamEvents parse chatId outcome).countP OutEvent.isTerminal = 1 ∧
    (∃ e, (ollamaStreamEvents parse chatId outcome).getLast? = some e ∧
      e.isTerminal = true) ∧
    (llamaStreamEvents parseL outL).countP OutEvent.isMeta = 0 ∧
    (llamaStreamEvents parseL outL).countP OutEvent.isDone = 0 ∧
    (lmstudioStreamEvents parseM outM).countP OutEvent.isMeta = 0 ∧
    (lmstudioStreamEvents parseM outM).countP OutEvent.isDone = 0 := by
  have hloop0 : ∀ (p : OutEvent → Bool), (∀ d, p (.delta d) = false) →
      (ollamaStreamLoop parse (initDecodeState, initOllamaAcc)
        (match outcome with
         | .response _ _ (some chunks) => chunks
         | _ => [])).2.countP p = 0 := by
    intro p hp
    rw [List.countP_eq_zero]
    intro e he
    rcases ollamaLoop_only_delta parse _ _ e he with ⟨d, rfl⟩
    simp [hp d]
  have hllama : ∀ (p : OutEvent → Bool), (∀ c, p (.text c) = false) →
      (∀ m, p (.error m) = false) →
      (llamaStreamEvents parseL outL).countP p = 0 := by
    intro p hpt hpe
    rw [List.countP_eq_zero]
    intro e he
    match outL with
    | .networkError msg =>
      simp only [llamaStreamEvents, List.mem_singleton] at he
      simp [he, hpe]
    | .response ok status body =>
      cases ok with
      | false =>
        have hev : llamaStreamEvents parseL (.response false status body)
            = [.error ("Llama API error".data)] := rfl
        rw [hev, List.mem_singleton] at he
        simp [he, hpe]
      | true =>
        cases body with
        | none =>
          have hev : llamaStreamEvents parseL (.response true status none)
              = [.error ("No response body".data)] := rfl
          rw [hev, List.mem_singleton] at he
          simp [he, hpe]
        | some chunks =>
          have hev : llamaStreamEvents parseL (.response true status (some chunks))
              = (accumFold (llamaStreamChunkStep parseL) initDecodeState chunks).2 := rfl
          rw [hev] at he
          rcases llamaStream_only_text parseL chunks e he with ⟨c, rfl⟩
          simp [hpt c]
  have hlmstudio : ∀ (p : OutEvent → Bool), (∀ c, p (.text c) = false) →
      (∀ m, p (.error m) = false) →
      (lmstudioStreamEvents parseM outM).countP p = 0 := by
    intro p hpt hpe
    rw [List.countP_eq_zero]
    intro e he
    match outM with
    | .networkError msg =>
      simp only [lmstudioStreamEvents, List.mem_singleton] at he
      simp [he, hpe]
    | .response ok status body =>
      cases ok with
      | false =>
        have hev : lmstudioStreamEvents parseM (.response false status body)
            = [.error ("LM Studio API error".data)] := rfl
        rw [hev, List.mem_singleton] at he
        simp [he, hpe]
      | true =>
        cases body with
        | none =>
          have hev : lmstudioStreamEvents parseM (.response true status none)
              = [.error ("No response body".data)] := rfl
          rw [hev, List.mem_singleton] at he
          simp [he, hpe]
        | some chunks =>
          have hev : lmstudioStreamEvents parseM (.response true status (some chunks))
              = (accumFold (lmstudioStreamChunkStep parseM) initDecodeState chunks).2 := rfl
          rw [hev] at he
          rcases lmstudioStream_only_text parseM chunks e he with ⟨c, rfl⟩
          simp [hpt c]
  refine ⟨rfl, ?_, ?_, ?_,
    hllama _ (fun c => rfl) (fun m => rfl),
    hllama _ (fun c => rfl) (fun m => rfl),
    hlmstudio _ (fun c => rfl) (fun m => rfl),
    hlmstudio _ (fun c => rfl) (fun m => rfl)⟩
  · match outcome with
    | .networkError msg => rfl
    | .response ok status body =>
      cases ok with
      | false => rfl
      | true =>
        cases body with
        | none => rfl
        | some chunks =>
          simp only [ollamaStreamEvents, List.countP_cons, List.countP_append]
          have h0 := hloop0 OutEvent.isMeta (fun d => rfl)
          simp only at h0
          simp [h0, OutEvent.isMeta, List.countP_eq_zero]
  · match outcome with
    | .networkError msg => rfl
    | .response ok status body =>
      cases ok with
      | false => rfl
      | true =>
        cases body with
        | none => rfl
        | some chunks =>
          simp only [ollamaStreamEvents, List.countP_cons, List.countP_append]
          have h0 := hloop0 OutEvent.isTerminal (fun d => rfl)
          simp only at h0
          simp [h0, OutEvent.isTerminal, List.countP_eq_zero]
  · match outcome with
    | .networkError msg => exact ⟨.error msg, rfl, rfl⟩
    | .response ok status body =>
      cases ok with
      | false => exact ⟨.error ("Ollama API error".data), rfl, rfl⟩
      | true =>
        cases body with
        | none => exact ⟨.error ("No response body".data), rfl, rfl⟩
        | some chunks =>
          refine ⟨.done, ?_, rfl⟩
          show (OutEvent.metadata chatId ::
            ((ollamaStreamLoop parse (initDecodeState, initOllamaAcc) chunks).2
              ++ [.done])).getLast? = some .done
          rw [← List.cons_append, List.getLast?_concat]

theorem deltaDocs_append (a b : List OutEvent) :
    deltaDocs (a ++ b) = deltaDocs a ++ deltaDocs b := by
  unfold deltaDocs
  exact List.filterMap_append a b _

/-- A step that either emits nothing and keeps the accumulator, or emits
delta frames whose last one carries the format of the new accumulated
text, folds to the same property. -/
theorem accumFold_lastDelta (g : σ → α → σ × List OutEvent)
    (pr : σ → OllamaStreamAcc)
    (hg : ∀ s x, (pr (g s x).1 = pr s ∧ (g s x).2 = []) ∨
          (deltaDocs (g s x).2).getLast?
            = some (formatContentAsMessageBinaryFormat (pr (g s x).1).fullContent))
    (s : σ) (xs : List α) :
    (pr (accumFold g s xs).1 = pr s ∧ (accumFold g s xs).2 = []) ∨
    (deltaDocs (accumFold g s xs).2).getLast?
      = some (formatContentAsMessageBinaryFormat
          (pr (accumFold g s xs).1).fullContent) := by
  induction xs generalizing s with
  | nil => left; simp [accumFold_nil]
  | cons x xs ih =>
    rw [accumFold_cons]
    dsimp only
    rcases ih (g s x).1 with ⟨hpr, hev⟩ | hlast
    · rcases hg s x with ⟨hpr0, hev0⟩ | hlast0
      · left
        rw [hpr, hpr0, hev, hev0]
        exact ⟨rfl, rfl⟩
      · right
        rw [hev, List.append_nil, hpr]
        exact hlast0
    · right
      have hne : deltaDocs (accumFold g (g s x).1 xs).2 ≠ [] := by
        intro h0
        rw [h0] at hlast
        simp at hlast
      rw [deltaDocs_append, List.getLast?_append_of_ne_nil _ hne]
      exact hlast

theorem ollamaProcessLine_lastDelta (parse : Str → Option OllamaStreamPayload)
    (acc : OllamaStreamAcc) (line : Str) :
    ((ollamaProcessLine parse acc line).1 = acc ∧
      (ollamaProcessLine parse acc line).2 = []) ∨
    (deltaDocs (ollamaProcessLine parse acc line).2).getLast?
      = some (formatContentAsMessageBinaryFormat
          ((ollamaProcessLine parse acc line).1).fullContent) := by
  rcases ollamaProcessLine_cases parse acc line with hc | ⟨c, hcne, hc⟩
  · left
    rw [hc]
    exact ⟨rfl, rfl⟩
  · right
    rw [hc]
    rfl

theorem ollamaLoop_lastDelta (parse : Str → Option OllamaStreamPayload)
    (s : StreamDecodeState × OllamaStreamAcc) (chunks : List (List Nat)) :
    ((ollamaStreamLoop parse s chunks).1.2 = s.2 ∧
      (ollamaStreamLoop parse s chunks).2 = []) ∨
    (deltaDocs (ollamaStreamLoop parse s chunks).2).getLast?
      = some (formatContentAsMessageBinaryFormat
          ((ollamaStreamLoop parse s chunks).1.2).fullContent) := by
  refine accumFold_lastDelta (ollamaStreamChunkStep parse) (fun s => s.2) ?_ s chunks
  intro s x
  simp only [ollamaStreamChunkStep]
  exact accumFold_lastDelta (ollamaProcessLine parse) (fun a => a)
    (fun acc line => ollamaProcessLine_lastDelta parse acc line)
    s.2 (decodeChunkStep s.1 x).2

/-- C2: a streaming call and a synchronous call over upstream responses
carrying the same assistant text yield the same final Document: for the
Ollama family the Document of the last delta equals the Document the
sync path attaches to the assistant turn (both are the Content
Formatter applied to the full assistant text); for the Llama adapter
neither path produces any Document (its stream carries no delta frames
and its sync response attaches no structured content), so the two paths
agree there as well. -/
theorem c2_sync_stream_same_document (parse : Str → Option OllamaStreamPayload)
    (chatIdS chatIdY : Str) (msgs : List OllamaMessage)
    (chunks : List (List Nat)) (data : OllamaSyncData)
    (hsame : ((ollamaStreamLoop parse (initDecodeState, initOllamaAcc) chunks).1.2).fullContent
        = data.message.content)
    (hne : data.message.content ≠ []) :
    lastDeltaDoc (ollamaStreamEvents parse chatIdS (.response true 200 (some chunks)))
      = some (formatContentAsMessageBinaryFormat data.message.content) ∧
    assistantDoc (ollamaSyncResponse chatIdY msgs data)
      = some (formatContentAsMessageBinaryFormat data.message.content) ∧
    lastDeltaDoc (ollamaStreamEvents parse chatIdS (.response true 200 (some chunks)))
      = assistantDoc (ollamaSyncResponse chatIdY msgs data) ∧
    (∀ parseC outc, deltaDocs (llamaStreamEvents parseC outc) = []) ∧
    (∀ chatId msgsL dataL r, llamaSyncResponse chatId msgsL dataL = some r →
      assistantDoc r = none) ∧
    (∀ parseC outc, deltaDocs (lmstudioStreamEvents parseC outc) = []) ∧
    (∀ chatId msgsM dataM r, lmstudioSyncResponse chatId msgsM dataM = some r →
      assistantDoc r = none) := by
  have hstream : lastDeltaDoc
      (ollamaStreamEvents parse chatIdS (.response true 200 (some chunks)))
      = some (formatContentAsMessageBinaryFormat data.message.content) := by
    have hev : ollamaStreamEvents parse chatIdS (.response true 200 (some chunks))
        = OutEvent.metadata chatIdS ::
          ((ollamaStreamLoop parse (initDecodeState, initOllamaAcc) chunks).2
            ++ [.done]) := rfl
    rw [lastDeltaDoc, hev]
    have hdocs : deltaDocs (OutEvent.metadata chatIdS ::
        ((ollamaStreamLoop parse (initDecodeState, initOllamaAcc) chunks).2
          ++ [.done]))
        = deltaDocs (ollamaStreamLoop parse (initDecodeState, initOllamaAcc) chunks).2 := by
      unfold deltaDocs
      rw [List.filterMap_cons]
      simp only [List.filterMap_append]
      simp [deltaDocs]
    rw [hdocs]
    rcases ollamaLoop_lastDelta parse (initDecodeState, initOllamaAcc) chunks with
      ⟨hacc, _⟩ | hlast
    · exfalso
      apply hne
      rw [← hsame, hacc]
      rfl
    · rw [hlast, hsame]
  refine ⟨hstream, ?_, ?_, ?_, ?_, ?_, ?_⟩
  · unfold assistantDoc ollamaSyncResponse
    rw [List.getLast?_concat]
    rfl
  · rw [hstream]
    unfold assistantDoc ollamaSyncResponse
    rw [List.getLast?_concat]
    rfl
  · intro parseC outc
    rw [deltaDocs, List.filterMap_eq_nil_iff]
    intro e he
    match outc with
    | .networkError msg =>
      have hev : llamaStreamEvents parseC (.networkError msg)
          = [.error msg] := rfl
      rw [hev, List.mem_singleton] at he
      rw [he]
    | .response ok status body =>
      cases ok with
      | false =>
        have hev : llamaStreamEvents parseC (.response false status body)
            = [.error ("Llama API error".data)] := rfl
        rw [hev, List.mem_singleton] at he
        rw [he]
      | true =>
        cases body with
        | none =>
          have hev : llamaStreamEvents parseC (.response true status none)
              = [.error ("No response body".data)] := rfl
          rw [hev, List.mem_singleton] at he
          rw [he]
        | some chs =>
          have hev : llamaStreamEvents parseC (.response true status (some chs))
              = (accumFold (llamaStreamChunkStep parseC) initDecodeState chs).2 := rfl
          rw [hev] at he
          rcases llamaStream_only_text parseC chs e he with ⟨c, rfl⟩
          rfl
  · intro chatId msgsL dataL r hr
    unfold llamaSyncResponse at hr
    cases hh : dataL.choices.head? with
    | none => rw [hh] at hr; cases hr
    | some choice =>
      rw [hh] at hr
      injection hr with hr
      rw [← hr]
      unfold assistantDoc
      rw [List.getLast?_concat]
      rfl
  · intro parseC outc
    rw [deltaDocs, List.filterMap_eq_nil_iff]
    intro e he
    match outc with
    | .networkError msg =>
      have hev : lmstudioStreamEvents parseC (.networkError msg)
          = [.error msg] := rfl
      rw [hev, List.mem_singleton] at he
      rw [he]
    | .response ok status body =>
      cases ok with
      | false =>
        have hev : lmstudioStreamEvents parseC (.response false status body)
            = [.error ("LM Studio API error".data)] := rfl
        rw [hev, List.mem_singleton] at he
        rw [he]
      | true =>
        cases body with
        | none =>
          have hev : lmstudioStreamEvents parseC (.response true status none)
              = [.error ("No response body".data)] := rfl
          rw [hev, List.mem_singleton] at he
          rw [he]
        | some chs =>
          have hev : lmstudioStreamEvents parseC (.response true status (some chs))
              = (accumFold (lmstudioStreamChunkStep parseC) initDecodeState chs).2 := rfl
          rw [hev] at he
          rcases lmstudioStream_only_text parseC chs e he with ⟨c, rfl⟩
          rfl
  · intro chatId msgsM dataM r hr
    unfold lmstudioSyncResponse at hr
    cases hh : dataM.choices.head? with
    | none => rw [hh] at hr; cases hr
    | some choice =>
      rw [hh] at hr
      injection hr with hr
      rw [← hr]
      unfold assistantDoc
      rw [List.getLast?_concat]
      rfl

/-- C2 witness: a one-chunk stream whose single line carries the text Hi
against a sync response carrying the same text. -/
theorem c2_sync_stream_same_document_witness :
    lastDeltaDoc (ollamaStreamEvents
        (fun l => if l = ("x".data)
          then some ⟨some ⟨"assistant".data, "Hi".data⟩⟩ else none)
        ("s1".data) (.response true 200 (some [asciiBytes "x\n"])))
      = some (formatContentAsMessageBinaryFormat ("Hi".data)) ∧
    assistantDoc (ollamaSyncResponse ("s2".data) []
        ⟨"m".data, ⟨"assistant".data, "Hi".data⟩, true⟩)
      = some (formatContentAsMessageBinaryFormat ("Hi".data)) :=
  ⟨(c2_sync_stream_same_document
      (fun l => if l = ("x".data)
        then some ⟨some ⟨"assistant".data, "Hi".data⟩⟩ else none)
      ("s1".data) ("s2".data) [] [asciiBytes "x\n"]
      ⟨"m".data, ⟨"assistant".data, "Hi".data⟩, true⟩
      (by decide) (by decide)).1,
   (c2_sync_stream_same_document
      (fun l => if l = ("x".data)
        then some ⟨some ⟨"assistant".data, "Hi".data⟩⟩ else none)
      ("s1".data) ("s2".data) [] [asciiBytes "x\n"]
      ⟨"m".data, ⟨"assistant".data, "Hi".data⟩, true⟩
      (by decide) (by decide)).2.1⟩

/-- C5: a complete line that fails JSON parsing (after SSE prefix
stripping where the framing uses it) is dropped without terminating the
stream: fed a valid line, an invalid line, and another valid line, both
streaming loops extract and process the two valid lines and skip the
invalid one, for the newline-JSON (Ollama) and SSE (Llama) decoders. -/
theorem c5_invalid_line_skipped (parse : Str → Option OllamaStreamPayload)
    (parseC : Str → Option SSEChunk) (acc : OllamaStreamAcc)
    (l1 l2 l3 t1 t2 t3 : Str) (m1 m3 : OllamaMessage)
    (p1 p2 p3 : Str) (ch1 ch3 : SSEChunk) (c1 c3 : Str)
    (h1 : parse l1 = some ⟨some m1⟩) (ht1 : (trim l1).isEmpty = false)
    (hc1 : m1.content.isEmpty = false)
    (h2 : parse l2 = none) (ht2 : (trim l2).isEmpty = false)
    (h3 : parse l3 = some ⟨some m3⟩) (ht3 : (trim l3).isEmpty = false)
    (hc3 : m3.content.isEmpty = false)
    (hq1 : trim t1 = ("data: ".data) ++ p1) (hd1 : p1 ≠ ("[DONE]".data))
    (hp1 : parseC p1 = some ch1) (hs1 : sseChunkContent ch1 = some c1)
    (hcc1 : c1.isEmpty = false)
    (hq2 : trim t2 = ("data: ".data) ++ p2) (hd2 : p2 ≠ ("[DONE]".data))
    (hp2 : parseC p2 = none)
    (hq3 : trim t3 = ("data: ".data) ++ p3) (hd3 : p3 ≠ ("[DONE]".data))
    (hp3 : parseC p3 = some ch3) (hs3 : sseChunkContent ch3 = some c3)
    (hcc3 : c3.isEmpty = false) :
    (accumFold (ollamaProcessLine parse) acc [l1, l2, l3]).2
      = [.delta (formatContentAsMessageBinaryFormat
            (acc.fullContent ++ m1.content)),
         .delta (formatContentAsMessageBinaryFormat
            (acc.fullContent ++ m1.content ++ m3.content))] ∧
    ((accumFold (ollamaProcessLine parse) acc [l1, l2, l3]).1).fullContent
      = acc.fullContent ++ m1.content ++ m3.content ∧
    ([t1, t2, t3].map (llamaProcessLine parseC)).flatten
      = [.text c1, .text c3] := by
  have hstep1 : ollamaProcessLine parse acc l1
      = (⟨acc.fullContent ++ m1.content,
          formatContentAsMessageBinaryFormat (acc.fullContent ++ m1.content)⟩,
         [.delta (formatContentAsMessageBinaryFormat
            (acc.fullContent ++ m1.content))]) := by
    simp [ollamaProcessLine, h1, ht1, hc1, createDelta]
  have hstep2 : ∀ a, ollamaProcessLine parse a l2 = (a, []) := by
    intro a
    simp [ollamaProcessLine, h2, ht2]
  have hstep3 : ∀ a, ollamaProcessLine parse a l3
      = (⟨a.fullContent ++ m3.content,
          formatContentAsMessageBinaryFormat (a.fullContent ++ m3.content)⟩,
         [.delta (formatContentAsMessageBinaryFormat
            (a.fullContent ++ m3.content))]) := by
    intro a
    simp [ollamaProcessLine, h3, ht3, hc3, createDelta]
  have hlen6 : ("data: ".data).length = 6 := by decide
  have hsse1 : llamaProcessLine parseC t1 = [.text c1] := by
    unfold llamaProcessLine
    rw [hq1, List.take_left' hlen6, List.drop_left' hlen6]
    simp [hd1, hp1, hs1, hcc1]
  have hsse2 : llamaProcessLine parseC t2 = [] := by
    unfold llamaProcessLine
    rw [hq2, List.take_left' hlen6, List.drop_left' hlen6]
    simp [hd2, hp2]
  have hsse3 : llamaProcessLine parseC t3 = [.text c3] := by
    unfold llamaProcessLine
    rw [hq3, List.take_left' hlen6, List.drop_left' hlen6]
    simp [hd3, hp3, hs3, hcc3]
  refine ⟨?_, ?_, ?_⟩
  · rw [accumFold_cons, accumFold_cons, accumFold_cons, accumFold_nil,
      hstep1]
    dsimp only
    rw [hstep2, hstep3]
    simp
  · rw [accumFold_cons, accumFold_cons, accumFold_cons, accumFold_nil,
      hstep1]
    dsimp only
    rw [hstep2, hstep3]
  · simp [hsse1, hsse2, hsse3]

/-- C5 witness: concrete valid, invalid, valid lines for both framing
families. -/
theorem c5_invalid_line_skipped_witness :
    (accumFold (ollamaProcessLine
        (fun l => if l = ("a".data)
          then some ⟨some ⟨"assistant".data, "X".data⟩⟩
          else if l = ("c".data)
          then some ⟨some ⟨"assistant".data, "Y".data⟩⟩
          else none))
        initOllamaAcc [("a".data), ("b".data), ("c".data)]).2
      = [.delta (formatContentAsMessageBinaryFormat ("X".data)),
         .delta (formatContentAsMessageBinaryFormat ("XY".data))] ∧
    ([("data: p".data), ("data: q".data), ("data: r".data)].map
        (llamaProcessLine
          (fun l => if l = ("p".data)
            then some ⟨some [⟨some ⟨some ("U".data)⟩⟩]⟩
            else if l = ("r".data)
            then some ⟨some [⟨some ⟨some ("V".data)⟩⟩]⟩
            else none))).flatten
      = [.text ("U".data), .text ("V".data)] := by
  have h := c5_invalid_line_skipped
    (fun l => if l = ("a".data)
      then some ⟨some ⟨"assistant".data, "X".data⟩⟩
      else if l = ("c".data)
      then some ⟨some ⟨"assistant".data, "Y".data⟩⟩
      else none)
    (fun l => if l = ("p".data)
      then some ⟨some [⟨some ⟨some ("U".data)⟩⟩]⟩
      else if l = ("r".data)
      then some ⟨some [⟨some ⟨some ("V".data)⟩⟩]⟩
      else none)
    initOllamaAcc
    ("a".data) ("b".data) ("c".data)
    ("data: p".data) ("data: q".data) ("data: r".data)
    ⟨"assistant".data, "X".data⟩ ⟨"assistant".data, "Y".data⟩
    ("p".data) ("q".data) ("r".data)
    ⟨some [⟨some ⟨some ("U".data)⟩⟩]⟩ ⟨some [⟨some ⟨some ("V".data)⟩⟩]⟩
    ("U".data) ("V".data)
    (by decide) (by decide) (by decide)
    (by decide) (by decide)
    (by decide) (by decide) (by decide)
    (by decide) (by decide) (by decide) (by decide) (by decide)
    (by decide) (by decide) (by decide)
    (by decide) (by decide) (by decide) (by decide) (by decide)
  exact ⟨h.1, h.2.2⟩

theorem getElem?_mapIdx (l : List α) (f : Nat → α → β) (i : Nat) :
    (l.mapIdx f)[i]? = (l[i]?).map (f i) := by
  by_cases h : i < l.length
  · have h2 : i < (l.mapIdx f).length := by
      simpa [List.length_mapIdx] using h
    rw [List.getElem?_eq_getElem h2, List.getElem?_eq_getElem h]
    have h3 := List.get_mapIdx l f i h h2
    simp only [List.get_eq_getElem] at h3
    rw [Option.map_some', h3]
  · have h1 : l.length ≤ i := Nat.le_of_not_lt h
    have h2 : (l.mapIdx f).length ≤ i := by
      simpa [List.length_mapIdx] using h1
    rw [List.getElem?_eq_none h1, List.getElem?_eq_none h2]
    rfl

/-- C7 counterexample: the Llama sync path does NOT attach a Document to
the assistant turn: at a concrete one-turn request the assistant entry
carries content Hello but experimental_content none, where the claim
requires the Content Formatter Document. -/
theorem c7_counterexample :
    llamaSyncResponse ("chat".data) [⟨"user".data, "Q".data⟩]
        ⟨"id".data, [⟨⟨"assistant".data, "Hello".data⟩, "stop".data⟩]⟩
      = some ⟨"chat".data,
          [⟨msgId 0, "user".data, "Q".data, none⟩,
           ⟨msgId 1, "assistant".data, "Hello".data, none⟩]⟩ ∧
    formatContentAsMessageBinaryFormat ("Hello".data)
      = [⟨0, "Hello".data⟩] := by
  refine ⟨?_, by decide⟩
  decide

/-- C7 amended: every self-synthesizing sync path echoes the n
upstream-body turns in order under identifiers msg-0 ... msg-(n-1) and
appends the assistant turn msg-n with the upstream assistant text; the
assistant turn carries the Content Formatter Document only for the
Ollama family - the Llama and LM Studio assistant turns carry no
Document. -/
theorem c7_sync_response_shape (chatId1 chatId2 chatId3 : Str)
    (msgs : List OllamaMessage) (dataO : OllamaSyncData)
    (dataL dataM : OpenAISyncData) (choiceL choiceM : OpenAIChoice)
    (hL : dataL.choices.head? = some choiceL)
    (hM : dataM.choices.head? = some choiceM) :
    (ollamaSyncResponse chatId1 msgs dataO).messages.length = msgs.length + 1 ∧
    (∀ i, i < msgs.length →
      (ollamaSyncResponse chatId1 msgs dataO).messages[i]?
        = (msgs[i]?).map (fun msg =>
            (⟨msgId i, msg.role, msg.content, none⟩ : ResponseMessage))) ∧
    (ollamaSyncResponse chatId1 msgs dataO).messages.getLast?
      = some ⟨msgId msgs.length, "assistant".data, dataO.message.content,
          some (formatContentAsMessageBinaryFormat dataO.message.content)⟩ ∧
    (∃ r, llamaSyncResponse chatId2 msgs dataL = some r ∧
      r.messages.length = msgs.length + 1 ∧
      (∀ i, i < msgs.length →
        r.messages[i]? = (msgs[i]?).map (fun msg =>
            (⟨msgId i, msg.role, msg.content, none⟩ : ResponseMessage))) ∧
      r.messages.getLast?
        = some ⟨msgId msgs.length, "assistant".data,
            choiceL.message.content, none⟩) ∧
    (∃ r, lmstudioSyncResponse chatId3 msgs dataM = some r ∧
      r.messages.length = msgs.length + 1 ∧
      (∀ i, i < msgs.length →
        r.messages[i]? = (msgs[i]?).map (fun msg =>
            (⟨msgId i, msg.role, msg.content, none⟩ : ResponseMessage))) ∧
      r.messages.getLast?
        = some ⟨msgId msgs.length, "assistant".data,
            choiceM.message.content, none⟩) := by
  have hlen : ∀ (t : ResponseMessage),
      ((msgs.mapIdx (fun idx msg =>
          (⟨msgId idx, msg.role, msg.content, none⟩ : ResponseMessage)))
        ++ [t]).length = msgs.length + 1 := by
    intro t
    simp [List.length_mapIdx]
  have hget : ∀ (t : ResponseMessage) i, i < msgs.length →
      ((msgs.mapIdx (fun idx msg =>
          (⟨msgId idx, msg.role, msg.content, none⟩ : ResponseMessage)))
        ++ [t])[i]?
        = (msgs[i]?).map (fun msg =>
            (⟨msgId i, msg.role, msg.content, none⟩ : ResponseMessage)) := by
    intro t i hi
    rw [List.getElem?_append_left (by simpa [List.length_mapIdx] using hi)]
    exact getElem?_mapIdx msgs _ i
  refine ⟨hlen _, hget _, ?_, ?_, ?_⟩
  · unfold ollamaSyncResponse
    rw [List.getLast?_concat]
  · have he : llamaSyncResponse chatId2 msgs dataL
        = some ⟨chatId2,
            (msgs.mapIdx (fun idx msg =>
              (⟨msgId idx, msg.role, msg.content, none⟩ : ResponseMessage)))
              ++ [⟨msgId msgs.length, "assistant".data,
                   choiceL.message.content, none⟩]⟩ := by
      unfold llamaSyncResponse
      rw [hL]
    exact ⟨_, he, hlen _, hget _, by rw [List.getLast?_concat]⟩
  · have he : lmstudioSyncResponse chatId3 msgs dataM
        = some ⟨chatId3,
            (msgs.mapIdx (fun idx msg =>
              (⟨msgId idx, msg.role, msg.content, none⟩ : ResponseMessage)))
              ++ [⟨msgId msgs.length, "assistant".data,
                   choiceM.message.content, none⟩]⟩ := by
      unfold lmstudioSyncResponse
      rw [hM]
    exact ⟨_, he, hlen _, hget _, by rw [List.getLast?_concat]⟩

/-- C7 witness: the theorem at a concrete one-turn conversation. -/
theorem c7_sync_response_shape_witness :
    (ollamaSyncResponse ("c1".data) [⟨"user".data, "Q".data⟩]
        ⟨"m".data, ⟨"assistant".data, "A".data⟩, true⟩).messages.length = 2 ∧
    (ollamaSyncResponse ("c1".data) [⟨"user".data, "Q".data⟩]
        ⟨"m".data, ⟨"assistant".data, "A".data⟩, true⟩).messages.getLast?
      = some ⟨msgId 1, "assistant".data, "A".data,
          some (formatContentAsMessageBinaryFormat ("A".data))⟩ := by
  have h := c7_sync_response_shape ("c1".data) ("c2".data) ("c3".data)
    [⟨"user".data, "Q".data⟩]
    ⟨"m".data, ⟨"assistant".data, "A".data⟩, true⟩
    ⟨"i".data, [⟨⟨"assistant".data, "B".data⟩, "stop".data⟩]⟩
    ⟨"i".data, [⟨⟨"assistant".data, "B".data⟩, "stop".data⟩]⟩
    ⟨⟨"assistant".data, "B".data⟩, "stop".data⟩
    ⟨⟨"assistant".data, "B".data⟩, "stop".data⟩
    (by decide) (by decide)
  exact ⟨h.1, h.2.2.1⟩

end VDiy

